import Mathlib

/-!
Shallow embedding of the okobit browser-local persistence layer
(Dexie/IndexedDB store for a chat-style image-generation app) and proofs
about its image-lifecycle, gallery, and import/export operations.

Tables are modelled as Lean lists; a Dexie table keyed by a primary key
corresponds to a list whose ids are (in well-formed states) pairwise
distinct.  Binary blobs are modelled as opaque strings.  The optional
`imageIds` field of a message behaves identically to the empty list on
every code path modelled here (JS truthiness of arrays plus iteration),
so it is modelled as a plain list.
-/

namespace Okobit

inductive Role where
  | user
  | model
deriving DecidableEq, Repr

/-- Chat record (src/types.ts). -/
structure Chat where
  id : String
  title : String
  pinned : Bool
  orderIndex : Nat
  createdAt : Nat
  updatedAt : Nat
deriving DecidableEq, Repr

/-- Message record (src/types.ts); meta/thoughts fields are omitted as no
modelled operation reads them. -/
structure Message where
  id : String
  chatId : String
  role : Role
  text : String
  imageIds : List String
  timestamp : Nat
  error : Bool
deriving DecidableEq, Repr

/-- Image record (src/types.ts, interface ImageBlob). -/
structure ImageBlob where
  id : String
  blob : String
  thumbnail : Option String
  mimeType : String
  createdAt : Nat
  isGalleryVisible : Bool
  galleryTimestamp : Option Nat
deriving DecidableEq, Repr

inductive PromptType where
  | recent
  | saved
deriving DecidableEq, Repr

/-- Prompt record (src/types.ts); id is auto-assigned by the table. -/
structure Prompt where
  id : Option Nat
  text : String
  type : PromptType
  timestamp : Nat
deriving DecidableEq, Repr

/-- The four Dexie tables of OkobitDB (src/db.ts). -/
structure Store where
  chats : List Chat
  messages : List Message
  images : List ImageBlob
  prompts : List Prompt
deriving DecidableEq, Repr

/-- db.images.get imageId (first record with the id; unique in well-formed states). -/
def getImage (st : Store) (imageId : String) : Option ImageBlob :=
  st.images.find? (fun img => img.id == imageId)

/-! ## cleanupService.ts -/

/-- isImageReferenced (src/services/cleanupService.ts):
db.messages.where('imageIds').equals(imageId).count() > 0. -/
def isImageReferenced (imageId : String) (msgs : List Message) : Bool :=
  decide (0 < msgs.countP (fun m => m.imageIds.contains imageId))

/-- The candidates of deleteImagesIfOrphaned: the stored images among the
given ids that are not bookmarked in the gallery. -/
def orphanCandidates (imageIds : List String) (st : Store) : List String :=
  ((st.images.filter (fun img => imageIds.contains img.id)).filter
    (fun img => !img.isGalleryVisible)).map (fun img => img.id)

/-- The toDelete list of deleteImagesIfOrphaned: candidates that are no
longer referenced by any message. -/
def orphansToDelete (imageIds : List String) (st : Store) : List String :=
  (orphanCandidates imageIds st).filter (fun i => !(isImageReferenced i st.messages))

/-- deleteImagesIfOrphaned (src/services/cleanupService.ts): among the
given ids, delete the images that are not gallery-visible and not
referenced by any message. -/
def deleteImagesIfOrphaned (imageIds : List String) (st : Store) : Store :=
  if imageIds.isEmpty then st
  else if (orphanCandidates imageIds st).isEmpty then st
  else if (orphansToDelete imageIds st).isEmpty then st
  else { st with images :=
          st.images.filter (fun img => !((orphansToDelete imageIds st).contains img.id)) }

/-- forceDeleteImages (src/services/cleanupService.ts): unconditionally
delete the listed images and strip their ids from every message found via
the multientry index (updated only when the filtered list changed). -/
def forceDeleteImages (imageIds : List String) (st : Store) : Store :=
  if imageIds.isEmpty then st
  else
    let images := st.images.filter (fun img => !(imageIds.contains img.id))
    let messages := st.messages.map (fun m =>
      if m.imageIds.any (fun i => imageIds.contains i) then
        let newIds := m.imageIds.filter (fun i => !(imageIds.contains i))
        if newIds.length ≠ m.imageIds.length then { m with imageIds := newIds } else m
      else m)
    { st with images := images, messages := messages }

/-- The deduplicated union of the imageIds of the messages selected by the
given ids (the Set collected by deleteMessagesWithCleanup, and likewise the
allImageIds Set of deleteMessagesSafe). -/
def cleanupCandidateIds (messageIds : List String) (msgs : List Message) : List String :=
  (((msgs.filter (fun m => messageIds.contains m.id)).map (fun m => m.imageIds)).flatten).dedup

/-- deleteMessagesWithCleanup (src/services/cleanupService.ts): collect the
candidate image ids of the doomed messages, delete the messages, then sweep
the candidates (the orphan check therefore sees the post-deletion messages). -/
def deleteMessagesWithCleanup (messageIds : List String) (st : Store) : Store :=
  if messageIds.isEmpty then st
  else if (cleanupCandidateIds messageIds st.messages).isEmpty then
    { st with messages := st.messages.filter (fun m => !(messageIds.contains m.id)) }
  else
    deleteImagesIfOrphaned (cleanupCandidateIds messageIds st.messages)
      { st with messages := st.messages.filter (fun m => !(messageIds.contains m.id)) }

/-- deleteChatWithCleanup (src/services/cleanupService.ts). -/
def deleteChatWithCleanup (chatId : String) (st : Store) : Store :=
  let msgs := st.messages.filter (fun m => m.chatId == chatId)
  let messageIds := msgs.map (fun m => m.id)
  let candidateImageIds := ((msgs.map (fun m => m.imageIds)).flatten).dedup
  let st1 : Store := { st with
    messages := st.messages.filter (fun m => !(messageIds.contains m.id)),
    chats := st.chats.filter (fun c => !(c.id == chatId)) }
  if candidateImageIds.isEmpty then st1
  else deleteImagesIfOrphaned candidateImageIds st1

/-- Body of the cleanupOrphanedImages transaction
(src/services/cleanupService.ts): full-table sweep of non-gallery,
unreferenced images, returning the deleted count. -/
def cleanupOrphanedImagesBody (st : Store) : Store × Nat :=
  let candidates := (st.images.filter (fun img => !img.isGalleryVisible)).map (fun img => img.id)
  if candidates.isEmpty then (st, 0)
  else
    let toDelete := candidates.filter (fun i => !(isImageReferenced i st.messages))
    (if toDelete.isEmpty then st
     else { st with images := st.images.filter (fun img => !(toDelete.contains img.id)) },
     toDelete.length)

/-- cleanupOrphanedImages (src/services/cleanupService.ts): the transaction
body wrapped in try/catch.  A failing transaction aborts with the store
unchanged and the catch handler returns 0; the txnFails flag models whether
the underlying transaction threw. -/
def cleanupOrphanedImages (txnFails : Bool) (st : Store) : Store × Nat :=
  if txnFails then (st, 0) else cleanupOrphanedImagesBody st

/-! ## dataService.ts : deleteMessagesSafe -/

/-- The isReferencedElsewhere check of deleteMessagesSafe: some message
that uses the image lies outside the deletion set. -/
def referencedOutside (messageIds : List String) (msgs : List Message) (imgId : String) : Bool :=
  (msgs.filter (fun m => m.imageIds.contains imgId)).any (fun m => !(messageIds.contains m.id))

/-- The imagesToDelete list of deleteMessagesSafe: images of the doomed
messages that are neither gallery-visible nor referenced from outside the
deletion set (both checked against the pre-deletion message table). -/
def safeImagesToDelete (messageIds : List String) (st : Store) : List String :=
  ((st.images.filter (fun img => (cleanupCandidateIds messageIds st.messages).contains img.id)).filter
    (fun img => !img.isGalleryVisible && !(referencedOutside messageIds st.messages img.id))).map
    (fun img => img.id)

/-- deleteMessagesSafe (src/services/dataService.ts): for each image of a
doomed message, keep it if gallery-visible or referenced by some message
outside the deletion set (checked before the messages are deleted), then
delete the messages. -/
def deleteMessagesSafe (messageIds : List String) (st : Store) : Store :=
  { st with
    images := st.images.filter (fun img => !((safeImagesToDelete messageIds st).contains img.id)),
    messages := st.messages.filter (fun m => !(messageIds.contains m.id)) }

/-! ## App.tsx : message send / generation / edit -/

/-- An attachment passed to handleSendMessage or handleEditMessage.
mimeType is the effective mime type computed by getEffectiveMimeType, and
imgId the uuid the app draws for the stored image. -/
structure SendFile where
  imgId : String
  blob : String
  thumbnail : String
  mimeType : String
deriving DecidableEq, Repr

/-- The unsupported-file test of handleSendMessage (src/App.tsx): the
effective type is missing or application/octet-stream. -/
def fileInvalid (f : SendFile) : Bool :=
  f.mimeType == "" || f.mimeType == "application/octet-stream"

/-- The image record stored for one attached file (db.images.add in
handleSendMessage and handleEditMessage): never gallery-visible at birth. -/
def sentImage (f : SendFile) (now : Nat) : ImageBlob :=
  { id := f.imgId, blob := f.blob, thumbnail := some f.thumbnail,
    mimeType := f.mimeType, createdAt := now,
    isGalleryVisible := false, galleryTimestamp := none }

/-- The attachment loop of handleSendMessage (src/App.tsx): each valid file
is stored as a fresh non-gallery image; an invalid file aborts the whole
send, leaving the images already stored in the table (result none). -/
def addFiles (st : Store) (files : List SendFile) (now : Nat) : Store × Option (List String) :=
  match files with
  | [] => (st, some [])
  | f :: rest =>
    if fileInvalid f then (st, none)
    else
      match addFiles { st with images := st.images ++ [sentImage f now] } rest now with
      | (st2, none) => (st2, none)
      | (st2, some ids) => (st2, some (f.imgId :: ids))

/-- Database core of handleSendMessage (src/App.tsx): store the
attachments, then add the user message referencing them; if a file is
rejected the function returns with the earlier images stored and no
message added. -/
def handleSendMessage (chatId msgId : String) (text : String) (files : List SendFile)
    (now : Nat) (st : Store) : Store :=
  match addFiles st files now with
  | (st1, none) => st1
  | (st1, some imageIds) =>
    { st1 with messages := st1.messages ++
      [{ id := msgId, chatId := chatId, role := Role.user, text := text,
         imageIds := imageIds, timestamp := now, error := false }] }

/-- One generated image handed back by the generation client. -/
structure GenImage where
  imgId : String
  blob : String
  thumbnail : String
  mimeType : String
deriving DecidableEq, Repr

/-- Database core of processGeneration (src/App.tsx): on success store the
generated images and the model message referencing them and bump the chat;
on failure add an error-flagged message with no images. -/
def generatedImage (g : GenImage) (now : Nat) : ImageBlob :=
  { id := g.imgId, blob := g.blob, thumbnail := some g.thumbnail,
    mimeType := g.mimeType, createdAt := now,
    isGalleryVisible := false, galleryTimestamp := none }

def processGeneration (chatId msgId : String) (responseText : String)
    (genImages : List GenImage) (now : Nat) (success : Bool) (st : Store) : Store :=
  if success then
    let st1 : Store := { st with images := st.images ++ genImages.map (fun g => generatedImage g now) }
    let st2 : Store := { st1 with messages := st1.messages ++
      [{ id := msgId, chatId := chatId, role := Role.model, text := responseText,
         imageIds := genImages.map (fun g => g.imgId), timestamp := now, error := false }] }
    { st2 with chats := st2.chats.map (fun c =>
        if c.id == chatId then { c with updatedAt := now } else c) }
  else
    { st with messages := st.messages ++
      [{ id := msgId, chatId := chatId, role := Role.model, text := responseText,
         imageIds := [], timestamp := now, error := true }] }

/-- Database core of handleEditMessage's performRegenerate (src/App.tsx):
delete the later messages with cleanup, store any new attachments, run
deleteImagesIfOrphaned on the ids removed from the message, and only then
rewrite the message's text and imageIds. -/
def handleEditMessage (chatId msgId : String) (newText : String)
    (keptImageIds : List String) (newFiles : List SendFile) (now : Nat) (st : Store) : Store :=
  match st.messages.find? (fun m => m.id == msgId) with
  | none => st
  | some targetMsg =>
    let laterIds := (st.messages.filter
      (fun m => m.chatId == chatId && targetMsg.timestamp < m.timestamp)).map (fun m => m.id)
    let st1 := deleteMessagesWithCleanup laterIds st
    match addFiles st1 newFiles now with
    | (st2, none) => st2
    | (st2, some newIds) =>
      let finalImageIds := keptImageIds ++ newIds
      let removedIds := targetMsg.imageIds.filter (fun i => !(keptImageIds.contains i))
      let st3 := if removedIds.isEmpty then st2 else deleteImagesIfOrphaned removedIds st2
      { st3 with messages := st3.messages.map (fun m =>
          if m.id == msgId then { m with text := newText, imageIds := finalImageIds } else m) }

/-! ## Gallery operations (App.tsx, Icon.tsx) -/

/-- Gallery count as used by App.tsx handleToggleGallery:
db.images.filter(i => i.isGalleryVisible).count(). -/
def galleryCountFlag (st : Store) : Nat :=
  (st.images.filter (fun i => i.isGalleryVisible)).length

/-- Membership test of the sparse-index range query
where('galleryTimestamp').above(0): records lacking the key are not in the
index. -/
def galleryTimestampAbove0 (i : ImageBlob) : Bool :=
  match i.galleryTimestamp with
  | some t => decide (0 < t)
  | none => false

/-- Gallery count as used by the lightbox (Icon.tsx handleToggleBookmark)
and the gallery view (PromptHistoryModal.tsx):
db.images.where('galleryTimestamp').above(0).count(). -/
def galleryCountSparse (st : Store) : Nat :=
  (st.images.filter galleryTimestampAbove0).length

/-- handleToggleBookmark of the lightbox (src/components/Icon.tsx): toggle
the single image; bookmarking checks the sparse-index count against the
50-image cap first.  The returned Bool is true when the gallery-full alert
fired (no mutation). -/
def handleToggleBookmark (imageId : String) (st : Store) : Store × Bool :=
  match getImage st imageId with
  | none => (st, false)
  | some imageData =>
    if imageData.isGalleryVisible then
      ({ st with images := st.images.map (fun img =>
          if img.id == imageId then { img with isGalleryVisible := false, galleryTimestamp := none }
          else img) }, false)
    else
      if 50 ≤ galleryCountSparse st then (st, true)
      else
        ({ st with images := st.images.map (fun img =>
            if img.id == imageId then
              { img with isGalleryVisible := true, galleryTimestamp := some imageData.createdAt }
            else img) }, false)

/-- handleToggleGallery (src/App.tsx): bulk toggle.  If any requested image
is not yet saved, save all unsaved ones unless they exceed the remaining
slots (reject the whole batch, returned Bool true); otherwise unbookmark
all requested images. -/
def handleToggleGallery (imageIds : List String) (st : Store) : Store × Bool :=
  let currentCount := galleryCountFlag st
  let validImages := imageIds.filterMap (fun i => getImage st i)
  let anyUnsaved := validImages.any (fun i => !i.isGalleryVisible)
  if anyUnsaved then
    let toSave := validImages.filter (fun i => !i.isGalleryVisible)
    if (50 : Int) - (currentCount : Int) < (toSave.length : Int) then (st, true)
    else
      let toSaveIds := toSave.map (fun i => i.id)
      ({ st with images := st.images.map (fun img =>
          if toSaveIds.contains img.id then
            { img with isGalleryVisible := true, galleryTimestamp := some img.createdAt }
          else img) }, false)
  else
    let validIds := validImages.map (fun i => i.id)
    ({ st with images := st.images.map (fun img =>
        if validIds.contains img.id then
          { img with isGalleryVisible := false, galleryTimestamp := none }
        else img) }, false)

/-- handleBulkUnbookmark (src/App.tsx): clear both gallery fields of every
requested image. -/
def handleBulkUnbookmark (imageIds : List String) (st : Store) : Store :=
  { st with images := st.images.map (fun img =>
      if imageIds.contains img.id then
        { img with isGalleryVisible := false, galleryTimestamp := none }
      else img) }

/-! ## db.ts : version-3 migration -/

/-- JS truthiness test of an optional numeric field: undefined and 0 are
falsy. -/
def jsFalsyNat : Option Nat → Bool
  | none => true
  | some t => t == 0

/-- Version-3 upgrade of OkobitDB (src/db.ts): backfill galleryTimestamp
(with createdAt) for gallery-visible images that lack it. -/
def migrateV3 (st : Store) : Store :=
  { st with images := st.images.map (fun img =>
      if img.isGalleryVisible && jsFalsyNat img.galleryTimestamp then
        { img with galleryTimestamp := some img.createdAt }
      else img) }

/-! ## dataService.ts : export -/

/-- Per-confirmation toggles (src/types.ts); the import field is renamed
importBackup because import is a reserved word. -/
structure Confirmations where
  deleteProject : Bool
  deleteMessage : Bool
  deleteImage : Bool
  regenerate : Bool
  fork : Bool
  importBackup : Bool
  factoryReset : Bool
deriving DecidableEq, Repr

/-- Application configuration (src/types.ts, interface AppConfig). -/
structure AppConfig where
  apiKey : String
  themeAccent : String
  safetyThreshold : String
  detailedVerbosity : Bool
  searchGrounding : Bool
  lightMode : Bool
  confirmations : Confirmations
deriving DecidableEq, Repr

/-- Image metadata entry of the export manifest (src/services/dataService.ts,
exportData): the blob and thumbnail are not part of the manifest. -/
structure ImageMeta where
  id : String
  mimeType : String
  createdAt : Nat
  isGalleryVisible : Bool
  galleryTimestamp : Option Nat
deriving DecidableEq, Repr

/-- The okobit_data.json manifest written by exportData. -/
structure Manifest where
  version : Nat
  exportedAt : Nat
  config : AppConfig
  chats : List Chat
  messages : List Message
  prompts : List Prompt
  images : List ImageMeta
deriving DecidableEq, Repr

/-- File extension derived from the mime type in exportData:
mimeType.split('/')[1] with 'bin' as the fallback for a missing or empty
second component. -/
def mimeExt (mimeType : String) : String :=
  match (mimeType.splitOn "/").get? 1 with
  | some e => if e == "" then "bin" else e
  | none => "bin"

/-- exportData (src/services/dataService.ts): manifest with the sanitized
configuration (apiKey replaced by the empty string) plus one archive entry
per image, named id.ext and carrying the raw blob.  The exportedAt value
Date.now() is passed in as now. -/
def exportData (config : AppConfig) (now : Nat) (st : Store) :
    Manifest × List (String × String) :=
  let exportConfig : AppConfig := { config with apiKey := "" }
  let metadata : Manifest :=
    { version := 4, exportedAt := now, config := exportConfig,
      chats := st.chats, messages := st.messages, prompts := st.prompts,
      images := st.images.map (fun img =>
        { id := img.id, mimeType := img.mimeType, createdAt := img.createdAt,
          isGalleryVisible := img.isGalleryVisible,
          galleryTimestamp := img.galleryTimestamp }) }
  let files := st.images.map (fun img => (img.id ++ "." ++ mimeExt img.mimeType, img.blob))
  (metadata, files)

/-! ## dataService.ts : import -/

/-- One image entry of a parsed backup: the manifest metadata together with
the binary located for it (file is none when neither id.ext nor id exists
among the archive entries; for the legacy JSON format it is the decoded
inline base64 payload). -/
structure ArchiveImage where
  id : String
  mimeType : String
  createdAt : Nat
  isGalleryVisible : Bool
  galleryTimestamp : Option Nat
  file : Option String
deriving DecidableEq, Repr

/-- A parsed backup archive (okobit_data.json plus located binaries). -/
structure Archive where
  chats : List Chat
  messages : List Message
  prompts : List Prompt
  images : List ArchiveImage
deriving DecidableEq, Repr

/-- Thumbnail regeneration (createThumbnail in geminiService.ts) is an
external canvas operation; it is modelled as an opaque deterministic
function of the blob. -/
def createThumbnail (blob : String) : String :=
  String.append "thumbnail-of:" blob

/-- The JS expression x || y on an optional number: undefined and 0 fall
back to y. -/
def jsOrNat (x : Option Nat) (y : Nat) : Nat :=
  match x with
  | some t => if t == 0 then y else t
  | none => y

/-- The record inserted for an archive image entry whose binary blob was
located: thumbnail regenerated, gallery fields restored with the
galleryTimestamp inferred from createdAt when visible but falsy. -/
def importedImage (meta : ArchiveImage) (blob : String) : ImageBlob :=
  { id := meta.id, blob := blob, thumbnail := some (createThumbnail blob),
    mimeType := meta.mimeType, createdAt := meta.createdAt,
    isGalleryVisible := meta.isGalleryVisible,
    galleryTimestamp :=
      if meta.isGalleryVisible then some (jsOrNat meta.galleryTimestamp meta.createdAt)
      else none }

/-- The batched image phase of importData (src/services/dataService.ts):
process metadata five at a time, skip ids already present, materialize each
remaining entry whose binary exists, regenerate its thumbnail, and restore
the gallery fields. -/
def importImagesBatches (metas : List ArchiveImage) (st : Store) : Store :=
  if metas.isEmpty then st
  else
    let batch := metas.take 5
    let rest := metas.drop 5
    let batchIds := batch.map (fun b => b.id)
    let existingIds := (st.images.filter (fun img => batchIds.contains img.id)).map (fun img => img.id)
    let candidates := batch.filter (fun b => !(existingIds.contains b.id))
    let itemsToAdd := candidates.filterMap (fun meta =>
      meta.file.map (fun blob => importedImage meta blob))
    importImagesBatches rest { st with images := st.images ++ itemsToAdd }
termination_by metas.length
decreasing_by
  rename_i hne
  simp only [List.length_drop]
  have h1 : metas ≠ [] := by simpa [List.isEmpty_iff] using hne
  have h2 : 0 < metas.length := List.length_pos.mpr h1
  omega

/-- Transaction 1 of importData (src/services/dataService.ts): merge the
metadata tables.  Chats and messages are inserted only when their id is
new; prompts are inserted unconditionally with the table-local id
stripped. -/
def importMetadata (a : Archive) (st : Store) : Store :=
  { st with
    chats := st.chats ++ a.chats.filter (fun c => !((st.chats.map (fun c2 => c2.id)).contains c.id)),
    messages := st.messages ++
      a.messages.filter (fun m => !((st.messages.map (fun m2 => m2.id)).contains m.id)),
    prompts := st.prompts ++ a.prompts.map (fun p => { p with id := none }) }

/-- importData for a zip archive (src/services/dataService.ts): additive
merge of the metadata tables followed by the batched image phase. -/
def importData (a : Archive) (st : Store) : Store :=
  importImagesBatches a.images (importMetadata a st)

/-- importLegacyJson (src/services/dataService.ts): same additive merge in
one transaction; binaries are decoded inline and galleryTimestamp is always
inferred from createdAt for visible images. -/
def importLegacyJson (a : Archive) (st : Store) : Store :=
  let existingChatIds := st.chats.map (fun c => c.id)
  let existingMessageIds := st.messages.map (fun m => m.id)
  let existingImageIds := st.images.map (fun i => i.id)
  let candidates := a.images.filter (fun x => !(existingImageIds.contains x.id))
  let hydrated := candidates.map (fun meta =>
    ({ id := meta.id, blob := meta.file.getD "", thumbnail := none,
       mimeType := meta.mimeType, createdAt := meta.createdAt,
       isGalleryVisible := meta.isGalleryVisible,
       galleryTimestamp :=
         if meta.isGalleryVisible then some meta.createdAt else none } : ImageBlob))
  { st with
    chats := st.chats ++ a.chats.filter (fun c => !(existingChatIds.contains c.id)),
    messages := st.messages ++ a.messages.filter (fun m => !(existingMessageIds.contains m.id)),
    prompts := st.prompts ++ a.prompts.map (fun p => { p with id := none }),
    images := st.images ++ hydrated }

/-! ## Specification predicates -/

/-- Per-image form of the sparse-index invariant of section 3 of the spec:
gallery-visible exactly when galleryTimestamp is present. -/
abbrev galleryOk (img : ImageBlob) : Prop :=
  img.isGalleryVisible = true ↔ img.galleryTimestamp.isSome = true

/-- Sparse-index invariant over a whole store. -/
abbrev galleryInvariant (st : Store) : Prop :=
  ∀ img ∈ st.images, galleryOk img

/-- Image-existence invariant of section 3 of the spec, as an executable
check: every stored image is gallery-visible or referenced by a message. -/
def imageReferencedOrVisible (st : Store) : Bool :=
  st.images.all (fun img => img.isGalleryVisible || isImageReferenced img.id st.messages)

end Okobit

namespace Okobit

/-! ## Helper lemmas -/

theorem contains_true_iff {α : Type} [BEq α] [LawfulBEq α] (l : List α) (a : α) :
    l.contains a = true ↔ a ∈ l := by
  simp [List.contains_iff_exists_mem_beq]

theorem isImageReferenced_true_iff (x : String) (msgs : List Message) :
    isImageReferenced x msgs = true ↔ ∃ m ∈ msgs, x ∈ m.imageIds := by
  simp [isImageReferenced, List.countP_pos_iff, contains_true_iff]

theorem isImageReferenced_false_iff (x : String) (msgs : List Message) :
    isImageReferenced x msgs = false ↔ ∀ m ∈ msgs, x ∉ m.imageIds := by
  rw [← Bool.not_eq_true, not_iff_comm, isImageReferenced_true_iff]
  push_neg
  tauto

theorem filter_self_of_length_eq {α : Type} (p : α → Bool) (l : List α)
    (h : (l.filter p).length = l.length) : l.filter p = l :=
  (List.filter_sublist l).eq_of_length h

/-! ## C3 : forceDelete semantics -/

/-- C3: forceDelete(imageIds) removes precisely the listed images from the
images table (unconditionally, gallery-visible or not, leaving all other
image records in place and in order), rewrites every message's imageIds by
filtering out exactly the listed ids while preserving the relative order of
the rest, and afterwards no message in any chat references any listed id. -/
theorem claimC3_forceDelete_semantics (ids : List String) (st : Store) :
    (forceDeleteImages ids st).images = st.images.filter (fun i => !(ids.contains i.id))
    ∧ (forceDeleteImages ids st).messages
        = st.messages.map (fun m => { m with imageIds := m.imageIds.filter (fun x => !(ids.contains x)) })
    ∧ (forceDeleteImages ids st).messages.all
        (fun m => m.imageIds.all (fun x => !(ids.contains x))) = true := by
  have hmsg : (forceDeleteImages ids st).messages
      = st.messages.map (fun m => { m with imageIds := m.imageIds.filter (fun x => !(ids.contains x)) }) := by
    by_cases hids : ids.isEmpty
    · have h0 : ids = [] := List.isEmpty_iff.mp hids
      subst h0
      simp [forceDeleteImages]
    · rw [forceDeleteImages, if_neg hids]
      refine List.map_congr_left (fun m _ => ?_)
      by_cases hov : m.imageIds.any (fun i => ids.contains i) = true
      · rw [if_pos hov]
        by_cases hlen : (m.imageIds.filter (fun i => !(ids.contains i))).length ≠ m.imageIds.length
        · rw [if_pos hlen]
        · rw [if_neg hlen]
          push_neg at hlen
          have hself := filter_self_of_length_eq _ _ hlen
          rw [hself]
      · rw [if_neg hov]
        have hnone : ∀ x ∈ m.imageIds, (!(ids.contains x)) = true := by
          intro x hx
          cases h : ids.contains x
          · simp
          · exact absurd (List.any_eq_true.mpr ⟨x, hx, h⟩) hov
        have hself : m.imageIds.filter (fun x => !(ids.contains x)) = m.imageIds :=
          List.filter_eq_self.mpr hnone
        rw [hself]
  have himg : (forceDeleteImages ids st).images
      = st.images.filter (fun i => !(ids.contains i.id)) := by
    by_cases hids : ids.isEmpty
    · have h0 : ids = [] := List.isEmpty_iff.mp hids
      subst h0
      simp [forceDeleteImages]
    · rw [forceDeleteImages, if_neg hids]
  refine ⟨himg, hmsg, ?_⟩
  rw [hmsg]
  simp only [List.all_eq_true, List.mem_map]
  rintro m ⟨m0, _, rfl⟩
  simp only [List.mem_filter]
  intro x hx
  exact hx.2

/-! ## C9 : export never leaks the API key -/

/-- C9: the exported manifest carries a configuration whose apiKey field is
the empty string, and two configurations differing only in the stored API
key produce identical exports (manifest and archive entries alike), so no
API key value can be recovered from an export. -/
theorem claimC9_export_redacts_apiKey (st : Store) (now : Nat) (cfg : AppConfig)
    (k1 k2 : String) :
    exportData { cfg with apiKey := k1 } now st = exportData { cfg with apiKey := k2 } now st
    ∧ (exportData cfg now st).1.config.apiKey = "" := by
  constructor
  · rfl
  · rfl

/-! ## C10 : the two gallery counts agree -/

/-- C10: in any store satisfying the sparse-index discipline (a positive
galleryTimestamp present exactly on gallery-visible images), the
sparse-index count used by the gallery view and the lightbox equals the
flag-based count used by the bulk capacity check. -/
theorem claimC10_gallery_counts_agree (st : Store)
    (h : ∀ img ∈ st.images,
      (img.isGalleryVisible = true ↔ ∃ t, img.galleryTimestamp = some t ∧ 0 < t)) :
    galleryCountSparse st = galleryCountFlag st := by
  unfold galleryCountSparse galleryCountFlag
  congr 1
  refine List.filter_congr (fun img hm => ?_)
  have hiff := h img hm
  unfold galleryTimestampAbove0
  cases hts : img.galleryTimestamp with
  | none =>
    simp only [hts] at hiff
    cases hvis : img.isGalleryVisible
    · rfl
    · exfalso
      obtain ⟨t, ht, _⟩ := hiff.mp hvis
      exact Option.noConfusion ht
  | some t =>
    simp only [hts] at hiff
    by_cases hpos : 0 < t
    · have hvis : img.isGalleryVisible = true := hiff.mpr ⟨t, rfl, hpos⟩
      simp [hvis, hpos]
    · cases hvis : img.isGalleryVisible
      · simp [hpos]
      · exfalso
        obtain ⟨u, hu, hupos⟩ := hiff.mp hvis
        cases hu
        exact hpos hupos

def c10Store : Store :=
  { chats := [], messages := [],
    images := [{ id := "a", blob := "b", thumbnail := none, mimeType := "image/png",
                 createdAt := 3, isGalleryVisible := true, galleryTimestamp := some 3 },
               { id := "b", blob := "b", thumbnail := none, mimeType := "image/png",
                 createdAt := 4, isGalleryVisible := false, galleryTimestamp := none }],
    prompts := [] }

/-- Witness for C10 on a concrete two-image store. -/
theorem claimC10_witness : galleryCountSparse c10Store = galleryCountFlag c10Store :=
  claimC10_gallery_counts_agree c10Store (by decide)

/-! ## C8 : full maintenance sweep -/

/-- C8: cleanupOrphanedImages is total (the catch handler makes a failing
transaction return 0 with the aborted, hence unchanged, store), and on
success it deletes exactly the non-gallery unreferenced images, returns
exactly their number, and touches nothing else. -/
theorem claimC8_fullSweep (st : Store)
    (hids : (st.images.map (fun i => i.id)).Nodup) :
    cleanupOrphanedImages true st = (st, 0)
    ∧ (cleanupOrphanedImages false st).1.images
        = st.images.filter (fun i => i.isGalleryVisible || isImageReferenced i.id st.messages)
    ∧ (cleanupOrphanedImages false st).2
        = (st.images.filter
            (fun i => !i.isGalleryVisible && !(isImageReferenced i.id st.messages))).length
    ∧ (cleanupOrphanedImages false st).1.messages = st.messages
    ∧ (cleanupOrphanedImages false st).1.chats = st.chats
    ∧ (cleanupOrphanedImages false st).1.prompts = st.prompts := by
  have hinj := List.inj_on_of_nodup_map hids
  set cands := (st.images.filter (fun img => !img.isGalleryVisible)).map (fun img => img.id) with hcands
  set toDel := cands.filter (fun i => !(isImageReferenced i st.messages)) with htoDel
  have hmemCands : ∀ x, x ∈ cands ↔ ∃ i ∈ st.images, i.isGalleryVisible = false ∧ i.id = x := by
    intro x
    rw [hcands]
    simp only [List.mem_map, List.mem_filter, Bool.not_eq_true']
    constructor
    · rintro ⟨i, ⟨hi, hv⟩, rfl⟩
      exact ⟨i, hi, hv, rfl⟩
    · rintro ⟨i, hi, hv, rfl⟩
      exact ⟨i, ⟨hi, hv⟩, rfl⟩
  have hmemToDel : ∀ i ∈ st.images,
      (i.id ∈ toDel ↔ (i.isGalleryVisible = false ∧ isImageReferenced i.id st.messages = false)) := by
    intro i hi
    rw [htoDel]
    simp only [List.mem_filter, Bool.not_eq_true']
    constructor
    · rintro ⟨hc, hr⟩
      obtain ⟨j, hj, hjv, hjid⟩ := (hmemCands _).mp hc
      have : j = i := hinj hj hi hjid
      subst this
      exact ⟨hjv, hr⟩
    · rintro ⟨hv, hr⟩
      exact ⟨(hmemCands _).mpr ⟨i, hi, hv, rfl⟩, hr⟩
  have hcount : toDel.length
      = (st.images.filter
          (fun i => !i.isGalleryVisible && !(isImageReferenced i.id st.messages))).length := by
    rw [htoDel, hcands, List.filter_map, List.length_map, List.filter_filter]
    congr 1
    refine List.filter_congr (fun i _ => ?_)
    exact Bool.and_comm _ _
  refine ⟨rfl, ?_⟩
  show _ ∧ _ ∧ _ ∧ _ ∧ _
  have hbody : cleanupOrphanedImages false st = cleanupOrphanedImagesBody st := rfl
  rw [hbody]
  simp only [cleanupOrphanedImagesBody]
  rw [← hcands, ← htoDel]
  by_cases hc0 : cands.isEmpty
  · rw [if_pos hc0]
    have hallvis : ∀ i ∈ st.images, i.isGalleryVisible = true := by
      intro i hi
      by_contra hv
      have hv' : i.isGalleryVisible = false := Bool.not_eq_true _ ▸ hv
      have : i.id ∈ cands := (hmemCands _).mpr ⟨i, hi, hv', rfl⟩
      rw [List.isEmpty_iff.mp hc0] at this
      exact absurd this (List.not_mem_nil _)
    have hflt : st.images.filter (fun i => i.isGalleryVisible || isImageReferenced i.id st.messages)
        = st.images :=
      List.filter_eq_self.mpr (fun i hi => by rw [hallvis i hi]; rfl)
    have hnil : st.images.filter
        (fun i => !i.isGalleryVisible && !(isImageReferenced i.id st.messages)) = [] :=
      List.filter_eq_nil_iff.mpr (fun i hi => by rw [hallvis i hi]; simp)
    rw [hflt, hnil]
    exact ⟨rfl, rfl, rfl, rfl, rfl⟩
  · rw [if_neg hc0]
    by_cases ht0 : toDel.isEmpty
    · have htnil : toDel = [] := List.isEmpty_iff.mp ht0
      have hnoorphan : ∀ i ∈ st.images,
          ¬(i.isGalleryVisible = false ∧ isImageReferenced i.id st.messages = false) := by
        intro i hi hcontra
        have : i.id ∈ toDel := (hmemToDel i hi).mpr hcontra
        rw [htnil] at this
        exact absurd this (List.not_mem_nil _)
      have hflt : st.images.filter
          (fun i => i.isGalleryVisible || isImageReferenced i.id st.messages) = st.images := by
        refine List.filter_eq_self.mpr (fun i hi => ?_)
        have := hnoorphan i hi
        cases hv : i.isGalleryVisible
        · cases hr : isImageReferenced i.id st.messages
          · exact absurd ⟨hv, hr⟩ this
          · rfl
        · rfl
      have hnil : st.images.filter
          (fun i => !i.isGalleryVisible && !(isImageReferenced i.id st.messages)) = [] := by
        refine List.filter_eq_nil_iff.mpr (fun i hi => ?_)
        have := hnoorphan i hi
        cases hv : i.isGalleryVisible
        · cases hr : isImageReferenced i.id st.messages
          · exact absurd ⟨hv, hr⟩ this
          · simp [hv, hr]
        · simp [hv]
      rw [hflt, hnil, if_pos ht0]
      exact ⟨rfl, by simp [htnil], rfl, rfl, rfl⟩
    · rw [if_neg ht0]
      have hflt : st.images.filter (fun img => !(toDel.contains img.id))
          = st.images.filter (fun i => i.isGalleryVisible || isImageReferenced i.id st.messages) := by
        refine List.filter_congr (fun i hi => ?_)
        have hiff := hmemToDel i hi
        cases hv : i.isGalleryVisible
        · cases hr : isImageReferenced i.id st.messages
          · have hmem : i.id ∈ toDel := hiff.mpr ⟨hv, hr⟩
            simpa using hmem
          · have hnmem : i.id ∉ toDel := fun hmem => by
              have := hiff.mp hmem
              rw [hr] at this
              exact Bool.true_eq_false.mp this.2
            simpa using hnmem
        · have hnmem : i.id ∉ toDel := fun hmem => Bool.true_eq_false.mp (hv ▸ (hiff.mp hmem).1)
          simpa using hnmem
      exact ⟨hflt ▸ rfl, hcount, rfl, rfl, rfl⟩

def c8Store : Store :=
  { chats := [],
    messages := [{ id := "m1", chatId := "c", role := Role.user, text := "t",
                   imageIds := ["keep2"], timestamp := 1, error := false }],
    images := [{ id := "orphan", blob := "b1", thumbnail := none, mimeType := "image/png",
                 createdAt := 1, isGalleryVisible := false, galleryTimestamp := none },
               { id := "keep1", blob := "b2", thumbnail := none, mimeType := "image/png",
                 createdAt := 2, isGalleryVisible := true, galleryTimestamp := some 2 },
               { id := "keep2", blob := "b3", thumbnail := none, mimeType := "image/png",
                 createdAt := 3, isGalleryVisible := false, galleryTimestamp := none }],
    prompts := [] }

/-- Witness for C8 on a concrete store holding one orphan, one bookmarked
image, and one referenced image. -/
theorem claimC8_witness :
    cleanupOrphanedImages true c8Store = (c8Store, 0)
    ∧ (cleanupOrphanedImages false c8Store).2 = 1 := by
  have h := claimC8_fullSweep c8Store (by decide)
  refine ⟨h.1, ?_⟩
  rw [h.2.2.1]
  decide

/-! ## C2 : survival under message deletion with cleanup -/

theorem isEmpty_false_of_mem {α : Type} {a : α} {l : List α} (h : a ∈ l) :
    l.isEmpty = false := by
  cases l
  · exact absurd h (List.not_mem_nil _)
  · rfl

theorem deleteImagesIfOrphaned_survival (ids : List String) (st : Store) (X : String)
    (img : ImageBlob) (himg : img ∈ st.images) (hid : img.id = X)
    (hvis : img.isGalleryVisible = false) (hX : X ∈ ids) :
    (∃ i ∈ (deleteImagesIfOrphaned ids st).images, i.id = X)
      ↔ isImageReferenced X st.messages = true := by
  have hXc : X ∈ orphanCandidates ids st := by
    unfold orphanCandidates
    refine List.mem_map.mpr ⟨img, List.mem_filter.mpr ⟨List.mem_filter.mpr ⟨himg, ?_⟩, ?_⟩, hid⟩
    · rw [hid]
      exact (contains_true_iff _ _).mpr hX
    · rw [hvis]
      rfl
  have hne : ids.isEmpty = false := isEmpty_false_of_mem hX
  have hcne : (orphanCandidates ids st).isEmpty = false := isEmpty_false_of_mem hXc
  unfold deleteImagesIfOrphaned
  rw [hne, hcne]
  simp only [Bool.false_eq_true, if_false]
  by_cases href : isImageReferenced X st.messages = true
  · refine iff_of_true ?_ href
    have hXnotDel : X ∉ orphansToDelete ids st := by
      intro hmem
      have h2 := (List.mem_filter.mp hmem).2
      rw [href] at h2
      exact absurd h2 (by decide)
    by_cases hdel0 : (orphansToDelete ids st).isEmpty = true
    · rw [if_pos hdel0]
      exact ⟨img, himg, hid⟩
    · rw [if_neg hdel0]
      refine ⟨img, List.mem_filter.mpr ⟨himg, ?_⟩, hid⟩
      cases h : (orphansToDelete ids st).contains img.id
      · rfl
      · exact absurd (hid ▸ (contains_true_iff _ _).mp h) hXnotDel
  · have hrf : isImageReferenced X st.messages = false := by
      cases h : isImageReferenced X st.messages
      · rfl
      · exact absurd h href
    refine iff_of_false ?_ href
    have hXdel : X ∈ orphansToDelete ids st := by
      unfold orphansToDelete
      refine List.mem_filter.mpr ⟨hXc, ?_⟩
      rw [hrf]
      rfl
    have hdne : (orphansToDelete ids st).isEmpty = false := isEmpty_false_of_mem hXdel
    rw [hdne]
    simp only [Bool.false_eq_true, if_false]
    rintro ⟨i, hi, hiX⟩
    have h2 := (List.mem_filter.mp hi).2
    rw [hiX] at h2
    have hcont : (orphansToDelete ids st).contains X = true := (contains_true_iff _ _).mpr hXdel
    rw [hcont] at h2
    exact absurd h2 (by decide)

theorem referencedOutside_true_iff (S : List String) (msgs : List Message) (X : String) :
    referencedOutside S msgs X = true ↔ ∃ m ∈ msgs, m.id ∉ S ∧ X ∈ m.imageIds := by
  unfold referencedOutside
  rw [List.any_eq_true]
  constructor
  · rintro ⟨m, hm, hout⟩
    obtain ⟨hmem, hcont⟩ := List.mem_filter.mp hm
    refine ⟨m, hmem, ?_, (contains_true_iff _ _).mp hcont⟩
    intro hmS
    have : S.contains m.id = true := (contains_true_iff _ _).mpr hmS
    rw [this] at hout
    exact absurd hout (by decide)
  · rintro ⟨m, hm, hout, hX⟩
    refine ⟨m, List.mem_filter.mpr ⟨hm, (contains_true_iff _ _).mpr hX⟩, ?_⟩
    cases h : S.contains m.id
    · rfl
    · exact absurd ((contains_true_iff _ _).mp h) hout

/-- C2: for a deletion set S and an image X that is attached to a doomed
message and not gallery-visible, both deletion paths
(deleteMessagesWithCleanup and deleteMessagesSafe) keep X exactly when some
message outside S still lists X; in particular with two fork messages
sharing X, deleting one keeps X and deleting both deletes X. -/
theorem claimC2_deletion_keeps_shared_images (S : List String) (st : Store) (X : String)
    (img : ImageBlob) (himg : img ∈ st.images) (hid : img.id = X)
    (hvis : img.isGalleryVisible = false)
    (hatt : ∃ m ∈ st.messages, m.id ∈ S ∧ X ∈ m.imageIds) :
    ((∃ i ∈ (deleteMessagesWithCleanup S st).images, i.id = X)
        ↔ ∃ m ∈ st.messages, m.id ∉ S ∧ X ∈ m.imageIds)
    ∧ ((∃ i ∈ (deleteMessagesSafe S st).images, i.id = X)
        ↔ ∃ m ∈ st.messages, m.id ∉ S ∧ X ∈ m.imageIds) := by
  obtain ⟨m0, hm0, hm0S, hm0X⟩ := hatt
  have hSne : S.isEmpty = false := isEmpty_false_of_mem hm0S
  have hXcand : X ∈ cleanupCandidateIds S st.messages := by
    unfold cleanupCandidateIds
    refine List.mem_dedup.mpr (List.mem_flatten.mpr ⟨m0.imageIds, ?_, hm0X⟩)
    refine List.mem_map.mpr ⟨m0, ?_, rfl⟩
    exact List.mem_filter.mpr ⟨hm0, (contains_true_iff _ _).mpr hm0S⟩
  constructor
  · -- deleteMessagesWithCleanup
    have hcne : (cleanupCandidateIds S st.messages).isEmpty = false :=
      isEmpty_false_of_mem hXcand
    unfold deleteMessagesWithCleanup
    rw [hSne, hcne]
    simp only [Bool.false_eq_true, if_false]
    set st1 : Store :=
      { st with messages := st.messages.filter (fun m => !(S.contains m.id)) } with hst1
    have hsurv := deleteImagesIfOrphaned_survival (cleanupCandidateIds S st.messages) st1 X img
      himg hid hvis hXcand
    refine hsurv.trans ?_
    rw [isImageReferenced_true_iff]
    constructor
    · rintro ⟨m, hm, hX⟩
      obtain ⟨hmem, hout⟩ := List.mem_filter.mp hm
      refine ⟨m, hmem, ?_, hX⟩
      intro hmS
      have : S.contains m.id = true := (contains_true_iff _ _).mpr hmS
      rw [this] at hout
      exact absurd hout (by decide)
    · rintro ⟨m, hm, hout, hX⟩
      refine ⟨m, List.mem_filter.mpr ⟨hm, ?_⟩, hX⟩
      cases h : S.contains m.id
      · rfl
      · exact absurd ((contains_true_iff _ _).mp h) hout
  · -- deleteMessagesSafe
    have hkey : X ∈ safeImagesToDelete S st ↔ referencedOutside S st.messages X = false := by
      constructor
      · intro hmem
        obtain ⟨j, hj, hjX⟩ := List.mem_map.mp hmem
        have h2 := (List.mem_filter.mp hj).2
        rw [hjX] at h2
        obtain ⟨_, hro⟩ := Bool.and_eq_true_iff.mp h2
        cases h : referencedOutside S st.messages X
        · rfl
        · rw [h] at hro
          exact absurd hro (by decide)
      · intro hro
        unfold safeImagesToDelete
        refine List.mem_map.mpr ⟨img, ?_, hid⟩
        refine List.mem_filter.mpr ⟨List.mem_filter.mpr ⟨himg, ?_⟩, ?_⟩
        · rw [hid]
          exact (contains_true_iff _ _).mpr hXcand
        · rw [hid, hvis, hro]
          rfl
    unfold deleteMessagesSafe
    refine Iff.trans ?_ (referencedOutside_true_iff S st.messages X)
    by_cases hro : referencedOutside S st.messages X = true
    · refine iff_of_true ?_ hro
      have hXnot : X ∉ safeImagesToDelete S st := by
        intro hmem
        rw [hkey.mp hmem] at hro
        exact absurd hro (by decide)
      refine ⟨img, List.mem_filter.mpr ⟨himg, ?_⟩, hid⟩
      cases h : (safeImagesToDelete S st).contains img.id
      · rfl
      · exact absurd (hid ▸ (contains_true_iff _ _).mp h) hXnot
    · refine iff_of_false ?_ hro
      have hrf : referencedOutside S st.messages X = false := by
        cases h : referencedOutside S st.messages X
        · rfl
        · exact absurd h hro
      have hXdel : X ∈ safeImagesToDelete S st := hkey.mpr hrf
      rintro ⟨i, hi, hiX⟩
      have h2 := (List.mem_filter.mp hi).2
      rw [hiX] at h2
      have hcont : (safeImagesToDelete S st).contains X = true :=
        (contains_true_iff _ _).mpr hXdel
      rw [hcont] at h2
      exact absurd h2 (by decide)

def c2Msg1 : Message :=
  { id := "m1", chatId := "chatA", role := Role.model, text := "t1",
    imageIds := ["x"], timestamp := 1, error := false }

def c2Msg2 : Message :=
  { id := "m2", chatId := "chatB", role := Role.model, text := "t2",
    imageIds := ["x"], timestamp := 2, error := false }

def c2Img : ImageBlob :=
  { id := "x", blob := "b", thumbnail := none, mimeType := "image/png",
    createdAt := 1, isGalleryVisible := false, galleryTimestamp := none }

def c2Store : Store :=
  { chats := [{ id := "chatA", title := "A", pinned := false, orderIndex := 0,
                createdAt := 1, updatedAt := 1 },
              { id := "chatB", title := "B", pinned := false, orderIndex := 1,
                createdAt := 2, updatedAt := 2 }],
    messages := [c2Msg1, c2Msg2], images := [c2Img], prompts := [] }

/-- Witness for C2: two messages in different chats share image x; deleting
one of them keeps x under both deletion paths. -/
theorem claimC2_witness :
    (∃ i ∈ (deleteMessagesWithCleanup ["m1"] c2Store).images, i.id = "x")
    ∧ (∃ i ∈ (deleteMessagesSafe ["m1"] c2Store).images, i.id = "x") := by
  have h := claimC2_deletion_keeps_shared_images ["m1"] c2Store "x" c2Img
    (by decide) (by decide) (by decide) (by decide)
  exact ⟨h.1.mpr (by decide), h.2.mpr (by decide)⟩

/-! ## C4 : gallery capacity -/

/-- C4: with the gallery at capacity, the lightbox bookmark of a stored,
not-yet-bookmarked image fires the gallery-full alert and leaves the store
untouched, and a bulk toggle whose unsaved images would push the
flag-based count past 50 is rejected as a whole with no mutation. -/
theorem claimC4_capacity_rejects (st : Store) :
    (∀ x img, getImage st x = some img → img.isGalleryVisible = false →
      50 ≤ galleryCountSparse st → handleToggleBookmark x st = (st, true))
    ∧ (∀ imageIds : List String,
        ((imageIds.filterMap (fun i => getImage st i)).filter (fun i => !i.isGalleryVisible)) ≠ [] →
        50 < galleryCountFlag st
          + ((imageIds.filterMap (fun i => getImage st i)).filter
              (fun i => !i.isGalleryVisible)).length →
        handleToggleGallery imageIds st = (st, true)) := by
  constructor
  · intro x img himg hvis hcount
    unfold handleToggleBookmark
    rw [himg]
    simp only [hvis, Bool.false_eq_true, if_false]
    rw [if_pos hcount]
  · intro imageIds htoSave hcap
    have hany : (imageIds.filterMap (fun i => getImage st i)).any
        (fun i => !i.isGalleryVisible) = true := by
      obtain ⟨j, hj⟩ := List.exists_mem_of_ne_nil _ htoSave
      obtain ⟨hjmem, hjv⟩ := List.mem_filter.mp hj
      exact List.any_eq_true.mpr ⟨j, hjmem, hjv⟩
    have hcond : (50 : Int) - (galleryCountFlag st : Int)
        < (((imageIds.filterMap (fun i => getImage st i)).filter
            (fun i => !i.isGalleryVisible)).length : Int) := by
      omega
    simp only [handleToggleGallery]
    rw [hany, if_pos rfl, if_pos hcond]

def c4ImgX : ImageBlob :=
  { id := "x", blob := "bx", thumbnail := none, mimeType := "image/png",
    createdAt := 100, isGalleryVisible := false, galleryTimestamp := none }

def c4ImgY1 : ImageBlob :=
  { id := "y1", blob := "by1", thumbnail := none, mimeType := "image/png",
    createdAt := 101, isGalleryVisible := false, galleryTimestamp := none }

def c4ImgY2 : ImageBlob :=
  { id := "y2", blob := "by2", thumbnail := none, mimeType := "image/png",
    createdAt := 102, isGalleryVisible := true, galleryTimestamp := some 102 }

def c4GalleryImage (n : Nat) : ImageBlob :=
  { id := String.append "g" (toString n), blob := "b", thumbnail := none,
    mimeType := "image/png", createdAt := n + 1,
    isGalleryVisible := true, galleryTimestamp := some (n + 1) }

def c4Store : Store :=
  { chats := [], messages := [],
    images := ((List.range 49).map c4GalleryImage) ++ [c4ImgX, c4ImgY1, c4ImgY2],
    prompts := [] }

/-- Witness for C4: the gallery of c4Store holds 50 images (49 generated
plus y2); bookmarking x from the lightbox is rejected, and a bulk toggle
saving y1 (with y2 already saved) is rejected as a whole. -/
theorem claimC4_witness :
    handleToggleBookmark "x" c4Store = (c4Store, true)
    ∧ handleToggleGallery ["y1", "y2"] c4Store = (c4Store, true) := by
  have h := claimC4_capacity_rejects c4Store
  refine ⟨h.1 "x" c4ImgX (by decide) (by decide) (by decide), ?_⟩
  exact h.2 ["y1", "y2"] (by decide) (by decide)

/-! ## Shared facts about the batched image import -/

theorem galleryOk_of_conditional (vis : Bool) (img : ImageBlob)
    (h : img.isGalleryVisible = vis)
    (ht : img.galleryTimestamp = if vis then some (img.galleryTimestamp.getD 0) else none) :
    galleryOk img := by
  cases vis
  · rw [galleryOk, h, ht]
    simp
  · rw [galleryOk, h, ht]
    simp

/-- Combined behaviour of the batched image-import loop: it only ever
appends to the images table (and every appended record satisfies the
sparse-index discipline), leaves the other tables alone, afterwards every
archive image whose binary was located is present by id, and it is a no-op
when all locatable archive images are already present by id. -/
theorem importImagesBatches_spec : ∀ (n : Nat) (metas : List ArchiveImage), metas.length ≤ n →
    ∀ st : Store,
    (importImagesBatches metas st).chats = st.chats
    ∧ (importImagesBatches metas st).messages = st.messages
    ∧ (importImagesBatches metas st).prompts = st.prompts
    ∧ (∃ extra : List ImageBlob, (importImagesBatches metas st).images = st.images ++ extra
        ∧ ∀ i ∈ extra, galleryOk i)
    ∧ (∀ meta ∈ metas, meta.file.isSome = true →
        meta.id ∈ (importImagesBatches metas st).images.map (fun i => i.id))
    ∧ ((∀ meta ∈ metas, meta.file.isSome = true → meta.id ∈ st.images.map (fun i => i.id)) →
        importImagesBatches metas st = st) := by
  intro n
  induction n with
  | zero =>
    intro metas hlen st
    have hnil : metas = [] := List.eq_nil_of_length_eq_zero (Nat.le_zero.mp hlen)
    subst hnil
    rw [importImagesBatches]
    refine ⟨rfl, rfl, rfl, ⟨[], by simp, fun i hi => absurd hi (List.not_mem_nil _)⟩,
      fun meta hmeta _ => absurd hmeta (List.not_mem_nil _), fun _ => rfl⟩
  | succ n ih =>
    intro metas hlen st
    by_cases hnil : metas.isEmpty = true
    · have h0 : metas = [] := List.isEmpty_iff.mp hnil
      subst h0
      rw [importImagesBatches]
      refine ⟨rfl, rfl, rfl, ⟨[], by simp, fun i hi => absurd hi (List.not_mem_nil _)⟩,
        fun meta hmeta _ => absurd hmeta (List.not_mem_nil _), fun _ => rfl⟩
    · have hmne : metas ≠ [] := fun h0 => by
        rw [h0] at hnil
        exact hnil rfl
      have hlpos : 0 < metas.length := List.length_pos.mpr hmne
      have hrestlen : (metas.drop 5).length ≤ n := by
        rw [List.length_drop]
        omega
      set batch := metas.take 5 with hbatch
      set rest := metas.drop 5 with hrest
      set batchIds := batch.map (fun b => b.id) with hbatchIds
      set existingIds := (st.images.filter (fun img => batchIds.contains img.id)).map
        (fun img => img.id) with hexisting
      set candidates := batch.filter (fun b => !(existingIds.contains b.id)) with hcandidates
      set itemsToAdd := candidates.filterMap (fun meta =>
        meta.file.map (fun blob => importedImage meta blob)) with hitems
      set stNext : Store := { st with images := st.images ++ itemsToAdd } with hstNext
      have hstep : importImagesBatches metas st = importImagesBatches rest stNext := by
        rw [importImagesBatches, if_neg hnil]
      rw [hstep]
      have hmemMetas : ∀ c : ArchiveImage, c ∈ batch ∨ c ∈ rest → c ∈ metas := by
        intro c hc
        rw [← List.take_append_drop 5 metas]
        exact List.mem_append.mpr hc
      have hitemsOk : ∀ i ∈ itemsToAdd, galleryOk i := by
        intro i hi
        rw [hitems] at hi
        obtain ⟨meta, _, hmap⟩ := List.mem_filterMap.mp hi
        cases hfile : meta.file with
        | none =>
          rw [hfile, Option.map_none'] at hmap
          exact Option.noConfusion hmap
        | some blob =>
          rw [hfile] at hmap
          simp only [Option.map_some', Option.some_inj] at hmap
          subst hmap
          rw [galleryOk, importedImage]
          cases hv : meta.isGalleryVisible
          · simp [hv]
          · simp [hv]
      have hspecNext := ih rest hrestlen stNext
      obtain ⟨hch, hms, hpr, ⟨extra, hextra, hextraOk⟩, hcover, hnoop⟩ := hspecNext
      refine ⟨hch, hms, hpr, ?_, ?_, ?_⟩
      · refine ⟨itemsToAdd ++ extra, ?_, ?_⟩
        · rw [hextra, hstNext]
          simp [List.append_assoc]
        · intro i hi
          rcases List.mem_append.mp hi with h1 | h2
          · exact hitemsOk i h1
          · exact hextraOk i h2
      · intro meta hmeta hfile
        have hidsNext : meta.id ∈ stNext.images.map (fun i => i.id) →
            meta.id ∈ (importImagesBatches rest stNext).images.map (fun i => i.id) := by
          intro hmem
          rw [hextra, List.map_append]
          exact List.mem_append.mpr (Or.inl hmem)
        have hsplit : meta ∈ batch ∨ meta ∈ rest := by
          rw [hbatch, hrest, ← List.mem_append, List.take_append_drop]
          exact hmeta
        rcases hsplit with hb | hr
        · by_cases hex : existingIds.contains meta.id = true
          · refine hidsNext ?_
            have hmm : meta.id ∈ existingIds := (contains_true_iff _ _).mp hex
            rw [hexisting] at hmm
            obtain ⟨j, hj, hjid⟩ := List.mem_map.mp hmm
            rw [hstNext]
            simp only [List.map_append]
            exact List.mem_append.mpr (Or.inl (List.mem_map.mpr
              ⟨j, (List.mem_filter.mp hj).1, hjid⟩))
          · have hcand : meta ∈ candidates := by
              rw [hcandidates]
              refine List.mem_filter.mpr ⟨hb, ?_⟩
              cases h : existingIds.contains meta.id
              · rfl
              · exact absurd h hex
            obtain ⟨blob, hblob⟩ := Option.isSome_iff_exists.mp hfile
            refine hidsNext ?_
            have hitem : importedImage meta blob ∈ itemsToAdd := by
              rw [hitems]
              refine List.mem_filterMap.mpr ⟨meta, hcand, ?_⟩
              rw [hblob]
              rfl
            rw [hstNext]
            simp only [List.map_append]
            refine List.mem_append.mpr (Or.inr (List.mem_map.mpr ⟨importedImage meta blob, hitem, rfl⟩))
        · exact hcover meta hr hfile
      · intro hall
        have hitemsNil : itemsToAdd = [] := by
          rw [hitems]
          refine List.filterMap_eq_nil_iff.mpr (fun c hc => ?_)
        -- every candidate with a located binary would already be present, so none hydrates
          cases hfile : c.file with
          | none => rfl
          | some blob =>
            exfalso
            rw [hcandidates] at hc
            have hcb : c ∈ batch := (List.mem_filter.mp hc).1
            have hcmem : c ∈ metas := hmemMetas c (Or.inl hcb)
            have hid := hall c hcmem (by rw [hfile]; rfl)
            obtain ⟨j, hj, hjid⟩ := List.mem_map.mp hid
            have hjex : c.id ∈ existingIds := by
              rw [hexisting]
              refine List.mem_map.mpr ⟨j, List.mem_filter.mpr ⟨hj, ?_⟩, hjid⟩
              rw [hjid, hbatchIds]
              exact (contains_true_iff _ _).mpr (List.mem_map.mpr ⟨c, hcb, rfl⟩)
            have hneg := (List.mem_filter.mp hc).2
            rw [(contains_true_iff _ _).mpr hjex] at hneg
            exact absurd hneg (by decide)
        have hstEq : stNext = st := by
          rw [hstNext, hitemsNil, List.append_nil]
        rw [hstEq] at hnoop ⊢
        exact hnoop (fun meta hmeta hfile => hall meta (hmemMetas meta (Or.inr hmeta)) hfile)

/-! ## C5 : sparse-index equivalence invariant -/

theorem galleryOk_map_update {l : List ImageBlob} (p : ImageBlob → Bool)
    (g : ImageBlob → ImageBlob) (hl : ∀ i ∈ l, galleryOk i)
    (hg : ∀ i ∈ l, p i = true → galleryOk (g i)) :
    ∀ i ∈ l.map (fun img => if p img then g img else img), galleryOk i := by
  intro i hi
  obtain ⟨j, hj, rfl⟩ := List.mem_map.mp hi
  by_cases hp : p j = true
  · rw [if_pos hp]
    exact hg j hj hp
  · rw [if_neg hp]
    exact hl j hj

theorem galleryOk_setFalse (img : ImageBlob) :
    galleryOk { img with isGalleryVisible := false, galleryTimestamp := none } := by
  simp [galleryOk]

theorem galleryOk_setTrue (img : ImageBlob) (t : Nat) :
    galleryOk { img with isGalleryVisible := true, galleryTimestamp := some t } := by
  simp [galleryOk]

theorem galleryOk_sentImage (f : SendFile) (now : Nat) : galleryOk (sentImage f now) := by
  simp [galleryOk, sentImage]

theorem galleryOk_generatedImage (g : GenImage) (now : Nat) :
    galleryOk (generatedImage g now) := by
  simp [galleryOk, generatedImage]

theorem addFiles_gallery (files : List SendFile) (now : Nat) :
    ∀ st : Store, (∀ i ∈ st.images, galleryOk i) →
      ∀ i ∈ (addFiles st files now).1.images, galleryOk i := by
  induction files with
  | nil =>
    intro st h
    exact h
  | cons f rest ih =>
    intro st h
    rw [addFiles]
    by_cases hf : fileInvalid f = true
    · rw [if_pos hf]
      exact h
    · rw [if_neg hf]
      have h1 : ∀ i ∈ ({ st with images := st.images ++ [sentImage f now] } : Store).images,
          galleryOk i := by
        intro i hi
        rcases List.mem_append.mp hi with h2 | h2
        · exact h i h2
        · rw [List.mem_singleton.mp h2]
          exact galleryOk_sentImage f now
      have h2 := ih { st with images := st.images ++ [sentImage f now] } h1
      cases hres : addFiles { st with images := st.images ++ [sentImage f now] } rest now with
      | mk st2 o =>
        rw [hres] at h2
        cases o
        · exact h2
        · exact h2

/-- C5: every operation that touches the gallery fields keeps the
equivalence isGalleryVisible = true iff galleryTimestamp present: the
lightbox toggle, the bulk toggle, the bulk unbookmark, image creation on
send and on generation, the archive and legacy imports, and the version-3
migration (which also establishes the equivalence on pre-v3 stores, where
the field did not exist yet). -/
theorem claimC5_gallery_fields_equivalence (st : Store) :
    (galleryInvariant st → ∀ x, galleryInvariant (handleToggleBookmark x st).1)
    ∧ (galleryInvariant st → ∀ ids, galleryInvariant (handleToggleGallery ids st).1)
    ∧ (galleryInvariant st → ∀ ids, galleryInvariant (handleBulkUnbookmark ids st))
    ∧ (galleryInvariant st → ∀ c m t files now,
        galleryInvariant (handleSendMessage c m t files now st))
    ∧ (galleryInvariant st → ∀ c m t gen now ok,
        galleryInvariant (processGeneration c m t gen now ok st))
    ∧ (galleryInvariant st → ∀ a, galleryInvariant (importData a st))
    ∧ (galleryInvariant st → ∀ a, galleryInvariant (importLegacyJson a st))
    ∧ (galleryInvariant st → galleryInvariant (migrateV3 st))
    ∧ ((∀ img ∈ st.images, img.galleryTimestamp = none) → galleryInvariant (migrateV3 st)) := by
  refine ⟨?_, ?_, ?_, ?_, ?_, ?_, ?_, ?_, ?_⟩
  · -- lightbox toggle
    intro hinv x
    unfold handleToggleBookmark
    cases hg : getImage st x with
    | none => exact hinv
    | some d =>
      by_cases hd : d.isGalleryVisible = true
      · simp only [hd, if_true]
        exact galleryOk_map_update (fun img => img.id == x)
          (fun img => { img with isGalleryVisible := false, galleryTimestamp := none }) hinv
          (fun i _ _ => galleryOk_setFalse i)
      · have hd2 : d.isGalleryVisible = false := by
          cases h : d.isGalleryVisible
          · rfl
          · exact absurd h hd
        simp only [hd2, Bool.false_eq_true, if_false]
        by_cases hcap : 50 ≤ galleryCountSparse st
        · rw [if_pos hcap]
          exact hinv
        · rw [if_neg hcap]
          exact galleryOk_map_update (fun img => img.id == x)
              (fun img => { img with isGalleryVisible := true, galleryTimestamp := some d.createdAt })
            hinv (fun i _ _ => galleryOk_setTrue i d.createdAt)
  · -- bulk toggle
    intro hinv ids
    simp only [handleToggleGallery]
    by_cases hany : (ids.filterMap (fun i => getImage st i)).any (fun i => !i.isGalleryVisible) = true
    · rw [hany, if_pos rfl]
      by_cases hcap : (50 : Int) - (galleryCountFlag st : Int)
          < (((ids.filterMap (fun i => getImage st i)).filter
              (fun i => !i.isGalleryVisible)).length : Int)
      · rw [if_pos hcap]
        exact hinv
      · rw [if_neg hcap]
        exact galleryOk_map_update
          (fun img => (((ids.filterMap (fun i => getImage st i)).filter
            (fun i => !i.isGalleryVisible)).map (fun i => i.id)).contains img.id)
            (fun img => { img with isGalleryVisible := true, galleryTimestamp := some img.createdAt })
            hinv (fun i _ _ => galleryOk_setTrue i i.createdAt)
    · have hany2 : (ids.filterMap (fun i => getImage st i)).any
          (fun i => !i.isGalleryVisible) = false := by
        cases h : (ids.filterMap (fun i => getImage st i)).any (fun i => !i.isGalleryVisible)
        · rfl
        · exact absurd h hany
      rw [hany2]
      simp only [Bool.false_eq_true, if_false]
      exact galleryOk_map_update
        (fun img => ((ids.filterMap (fun i => getImage st i)).map (fun i => i.id)).contains img.id)
        (fun img => { img with isGalleryVisible := false, galleryTimestamp := none }) hinv
        (fun i _ _ => galleryOk_setFalse i)
  · -- bulk unbookmark
    intro hinv ids
    unfold handleBulkUnbookmark
    exact galleryOk_map_update (fun img => ids.contains img.id)
      (fun img => { img with isGalleryVisible := false, galleryTimestamp := none }) hinv
      (fun i _ _ => galleryOk_setFalse i)
  · -- message send
    intro hinv c m t files now
    unfold handleSendMessage
    have h1 := addFiles_gallery files now st hinv
    cases hres : addFiles st files now with
    | mk st1 o =>
      rw [hres] at h1
      cases o
      · exact h1
      · exact h1
  · -- generation
    intro hinv c m t gen now ok
    cases ok
    · exact hinv
    · intro i hi
      have hi2 : i ∈ st.images ++ gen.map (fun g => generatedImage g now) := hi
      rcases List.mem_append.mp hi2 with h2 | h2
      · exact hinv i h2
      · obtain ⟨g, _, rfl⟩ := List.mem_map.mp h2
        exact galleryOk_generatedImage g now
  · -- archive import
    intro hinv a
    unfold importData
    obtain ⟨extra, hextra, hok⟩ :=
      (importImagesBatches_spec a.images.length a.images le_rfl (importMetadata a st)).2.2.2.1
    intro i hi
    rw [hextra] at hi
    rcases List.mem_append.mp hi with h2 | h2
    · exact hinv i h2
    · exact hok i h2
  · -- legacy import
    intro hinv a
    intro i hi
    simp only [importLegacyJson] at hi
    rcases List.mem_append.mp hi with h2 | h2
    · exact hinv i h2
    · obtain ⟨meta, _, rfl⟩ := List.mem_map.mp h2
      rw [galleryOk]
      cases hv : meta.isGalleryVisible
      · simp [hv]
      · simp [hv]
  · -- migration preserves
    intro hinv
    unfold migrateV3
    refine galleryOk_map_update _ _ hinv (fun i hi hp => ?_)
    obtain ⟨hv, _⟩ := Bool.and_eq_true_iff.mp hp
    rw [galleryOk]
    simp [hv]
  · -- migration establishes on a pre-v3 store
    intro hnone
    unfold migrateV3
    intro i hi
    obtain ⟨j, hj, rfl⟩ := List.mem_map.mp hi
    by_cases hp : (j.isGalleryVisible && jsFalsyNat j.galleryTimestamp) = true
    · rw [if_pos hp]
      obtain ⟨hv, _⟩ := Bool.and_eq_true_iff.mp hp
      rw [galleryOk]
      simp [hv]
    · rw [if_neg hp]
      have hjt := hnone j hj
      rw [galleryOk, hjt]
      constructor
      · intro hv
        exfalso
        refine hp ?_
        rw [hv, hjt]
        rfl
      · intro hs
        exact absurd hs (by simp)

def c5Store : Store :=
  { chats := [], messages := [],
    images := [{ id := "v", blob := "b", thumbnail := none, mimeType := "image/png",
                 createdAt := 7, isGalleryVisible := false, galleryTimestamp := none }],
    prompts := [] }

/-- Witness for C5 on a concrete store: the bulk unbookmark, a toggle, and
the migration all keep (or establish) the equivalence. -/
theorem claimC5_witness :
    galleryInvariant (handleBulkUnbookmark ["v"] c5Store)
    ∧ galleryInvariant (handleToggleGallery ["v"] c5Store).1
    ∧ galleryInvariant (migrateV3 c5Store) := by
  have h := claimC5_gallery_fields_equivalence c5Store
  exact ⟨h.2.2.1 (by decide) ["v"], h.2.1 (by decide) ["v"], h.2.2.2.2.2.2.2.2 (by decide)⟩

/-! ## C6 : importing the same archive twice -/

/-- C6: a second import of the same archive leaves the Chat, Message, and
Image tables exactly as after the first import, while the Prompts table
grows again by the archive's prompt entries (with their table-local ids
stripped). -/
theorem claimC6_import_idempotent_except_prompts (a : Archive) (st0 : Store) :
    (importData a (importData a st0)).chats = (importData a st0).chats
    ∧ (importData a (importData a st0)).messages = (importData a st0).messages
    ∧ (importData a (importData a st0)).images = (importData a st0).images
    ∧ (importData a (importData a st0)).prompts
        = (importData a st0).prompts ++ a.prompts.map (fun p => { p with id := none }) := by
  have hspec := fun st : Store =>
    importImagesBatches_spec a.images.length a.images le_rfl (importMetadata a st)
  have hchats : ∀ st : Store, (importData a st).chats
      = st.chats ++ a.chats.filter (fun c => !((st.chats.map (fun c2 => c2.id)).contains c.id)) :=
    fun st => (hspec st).1
  have hmsgs : ∀ st : Store, (importData a st).messages
      = st.messages ++
        a.messages.filter (fun m => !((st.messages.map (fun m2 => m2.id)).contains m.id)) :=
    fun st => (hspec st).2.1
  refine ⟨?_, ?_, ?_, (hspec (importData a st0)).2.2.1⟩
  · rw [hchats (importData a st0)]
    have hnil : a.chats.filter
        (fun c => !(((importData a st0).chats.map (fun c2 => c2.id)).contains c.id)) = [] := by
      refine List.filter_eq_nil_iff.mpr (fun c hc => ?_)
      have hin : c.id ∈ (importData a st0).chats.map (fun c2 => c2.id) := by
        rw [hchats st0, List.map_append]
        by_cases h0 : c.id ∈ st0.chats.map (fun c2 => c2.id)
        · exact List.mem_append.mpr (Or.inl h0)
        · refine List.mem_append.mpr (Or.inr (List.mem_map.mpr ⟨c, List.mem_filter.mpr ⟨hc, ?_⟩, rfl⟩))
          cases hcontain : (st0.chats.map (fun c2 => c2.id)).contains c.id
          · rfl
          · exact absurd ((contains_true_iff _ _).mp hcontain) h0
      intro hbang
      rw [(contains_true_iff _ _).mpr hin] at hbang
      exact absurd hbang (by decide)
    rw [hnil, List.append_nil]
  · rw [hmsgs (importData a st0)]
    have hnil : a.messages.filter
        (fun m => !(((importData a st0).messages.map (fun m2 => m2.id)).contains m.id)) = [] := by
      refine List.filter_eq_nil_iff.mpr (fun m hm => ?_)
      have hin : m.id ∈ (importData a st0).messages.map (fun m2 => m2.id) := by
        rw [hmsgs st0, List.map_append]
        by_cases h0 : m.id ∈ st0.messages.map (fun m2 => m2.id)
        · exact List.mem_append.mpr (Or.inl h0)
        · refine List.mem_append.mpr (Or.inr (List.mem_map.mpr ⟨m, List.mem_filter.mpr ⟨hm, ?_⟩, rfl⟩))
          cases hcontain : (st0.messages.map (fun m2 => m2.id)).contains m.id
          · rfl
          · exact absurd ((contains_true_iff _ _).mp hcontain) h0
      intro hbang
      rw [(contains_true_iff _ _).mpr hin] at hbang
      exact absurd hbang (by decide)
    rw [hnil, List.append_nil]
  · have hcover := (hspec st0).2.2.2.2.1
    have hnoop := (hspec (importData a st0)).2.2.2.2.2
    have hres := hnoop (fun meta hm hf => hcover meta hm hf)
    show (importImagesBatches a.images (importMetadata a (importData a st0))).images
      = (importData a st0).images
    rw [hres]
    rfl

/-! ## C1 : the image-existence invariant is broken by the edit path -/

def c1Chat : Chat :=
  { id := "c", title := "C", pinned := false, orderIndex := 0, createdAt := 1, updatedAt := 1 }

def c1Msg : Message :=
  { id := "m", chatId := "c", role := Role.user, text := "t",
    imageIds := ["x"], timestamp := 10, error := false }

def c1Img : ImageBlob :=
  { id := "x", blob := "b", thumbnail := none, mimeType := "image/png",
    createdAt := 1, isGalleryVisible := false, galleryTimestamp := none }

def c1Store : Store :=
  { chats := [c1Chat], messages := [c1Msg], images := [c1Img], prompts := [] }

/-- C1: the edit operation breaks the image-existence invariant.  In a
store satisfying the invariant (one message holding the non-bookmarked
image x), editing that message to drop the attachment runs
deleteImagesIfOrphaned on the removed id while the message still references
it (the imageIds rewrite happens only afterwards), so x survives the sweep
and the resulting state keeps x stored while it is neither gallery-visible
nor referenced by any message. -/
theorem claimC1_edit_breaks_invariant :
    imageReferencedOrVisible c1Store = true
    ∧ ((handleEditMessage "c" "m" "edited" [] [] 20 c1Store).images.map (fun i => i.id)) = ["x"]
    ∧ ((handleEditMessage "c" "m" "edited" [] [] 20 c1Store).images.all
        (fun i => !i.isGalleryVisible)) = true
    ∧ isImageReferenced "x" (handleEditMessage "c" "m" "edited" [] [] 20 c1Store).messages = false
    ∧ imageReferencedOrVisible (handleEditMessage "c" "m" "edited" [] [] 20 c1Store) = false := by
  refine ⟨by decide, by decide, by decide, by decide, by decide⟩

/-! ## C7 : gallery bookmark idempotence -/

def c7Img : ImageBlob :=
  { id := "x", blob := "b", thumbnail := none, mimeType := "image/png",
    createdAt := 5, isGalleryVisible := true, galleryTimestamp := some 5 }

def c7Store : Store :=
  { chats := [], messages := [], images := [c7Img], prompts := [] }

/-- Counterexample to C7 as stated: invoking the bulk gallery operation on
an already-bookmarked image is not a no-op — the toggle takes the
unbookmark branch, so the image does not stay bookmarked and the store
changes. -/
theorem claimC7_counterexample :
    (handleToggleGallery ["x"] c7Store).1 ≠ c7Store
    ∧ ((handleToggleGallery ["x"] c7Store).1.images.map (fun i => i.isGalleryVisible)) = [false]
    ∧ ((handleToggleGallery ["x"] c7Store).1.images.map (fun i => i.galleryTimestamp)) = [none] := by
  refine ⟨by decide, by decide, by decide⟩

theorem find?_by_id_of_nodup (y : String) :
    ∀ l : List ImageBlob, (l.map (fun i => i.id)).Nodup →
      ∀ img ∈ l, img.id = y → l.find? (fun i => i.id == y) = some img := by
  intro l
  induction l with
  | nil =>
    intro _ img himg
    exact absurd himg (List.not_mem_nil _)
  | cons a tl ih =>
    intro hnd img himg hidy
    rw [List.map_cons] at hnd
    have hnd2 := List.nodup_cons.mp hnd
    rcases List.mem_cons.mp himg with rfl | htl
    · rw [List.find?_cons_of_pos]
      simp [hidy]
    · have hne : (a.id == y) = false := by
        cases h : a.id == y
        · rfl
        · exfalso
          have hay : a.id = y := by simpa using h
          refine hnd2.1 ?_
          rw [hay, ← hidy]
          exact List.mem_map.mpr ⟨img, htl, rfl⟩
      rw [List.find?_cons_of_neg]
      · exact ih hnd2.2 img htl hidy
      · simp [hne]

theorem find?_map_id_preserving (f : ImageBlob → ImageBlob)
    (hf : ∀ i, (f i).id = i.id) (y : String) :
    ∀ l : List ImageBlob,
      (l.map f).find? (fun i => i.id == y) = (l.find? (fun i => i.id == y)).map f := by
  intro l
  induction l with
  | nil => rfl
  | cons a tl ih =>
    rw [List.map_cons]
    by_cases h : (a.id == y) = true
    · rw [List.find?_cons_of_pos, List.find?_cons_of_pos]
      · rfl
      · exact h
      · rw [hf a]
        exact h
    · have h2 : (a.id == y) = false := by
        cases hb : a.id == y
        · rfl
        · exact absurd hb h
      rw [List.find?_cons_of_neg, List.find?_cons_of_neg]
      · exact ih
      · simp [h2]
      · simp only [hf a]
        simp [h2]

/-- C7 amended: the gallery operations are toggles, not separate
bookmark/unbookmark entry points.  What holds is: (a) whenever a bulk
toggle actually bookmarks (some requested image is unsaved), every image
that was already bookmarked is left untouched; (b) the bulk unbookmark of
images that are already non-bookmarked leaves the store unchanged; and
(c) the single-image toggle invoked on a bookmarked image unbookmarks it
(rather than being a no-op, which the counterexample shows is false for a
toggle request consisting only of bookmarked images). -/
theorem claimC7_amended_toggle_noop (st : Store) :
    ((st.images.map (fun i => i.id)).Nodup →
      ∀ ids : List String,
        (ids.filterMap (fun i => getImage st i)).any (fun i => !i.isGalleryVisible) = true →
        ∀ img ∈ st.images, img.isGalleryVisible = true →
          getImage (handleToggleGallery ids st).1 img.id = some img)
    ∧ (∀ ids : List String,
        (∀ img ∈ st.images, ids.contains img.id = true →
          img.isGalleryVisible = false ∧ img.galleryTimestamp = none) →
        handleBulkUnbookmark ids st = st)
    ∧ (∀ x img, getImage st x = some img → img.isGalleryVisible = true →
        (handleToggleBookmark x st).2 = false
        ∧ (handleToggleBookmark x st).1.images = st.images.map (fun i =>
            if i.id == x then { i with isGalleryVisible := false, galleryTimestamp := none }
            else i)) := by
  refine ⟨?_, ?_, ?_⟩
  · intro hnodup ids hany img himg hvis
    simp only [handleToggleGallery]
    rw [hany, if_pos rfl]
    by_cases hcap : (50 : Int) - (galleryCountFlag st : Int)
        < (((ids.filterMap (fun i => getImage st i)).filter
            (fun i => !i.isGalleryVisible)).length : Int)
    · rw [if_pos hcap]
      exact find?_by_id_of_nodup img.id st.images hnodup img himg rfl
    · rw [if_neg hcap]
      set toSaveIds := (((ids.filterMap (fun i => getImage st i)).filter
        (fun i => !i.isGalleryVisible)).map (fun i => i.id)) with htsi
      have hnotSave : toSaveIds.contains img.id = false := by
        cases hb : toSaveIds.contains img.id
        · rfl
        · exfalso
          have hmem := (contains_true_iff _ _).mp hb
          rw [htsi] at hmem
          obtain ⟨t, ht, htid⟩ := List.mem_map.mp hmem
          obtain ⟨htmem, htvis⟩ := List.mem_filter.mp ht
          obtain ⟨i0, _, hgi⟩ := List.mem_filterMap.mp htmem
          have htst : t ∈ st.images := List.mem_of_find?_eq_some hgi
          have hteq : t = img :=
            List.inj_on_of_nodup_map hnodup htst himg htid
          rw [hteq, hvis] at htvis
          exact absurd htvis (by decide)
      have hfid : ∀ i : ImageBlob,
          ((fun i2 => if toSaveIds.contains i2.id then
            { i2 with isGalleryVisible := true, galleryTimestamp := some i2.createdAt }
            else i2) i).id = i.id := by
        intro i
        by_cases hb : i.id ∈ toSaveIds
        · simp [hb]
        · simp [hb]
      show (st.images.map _).find? (fun i => i.id == img.id) = some img
      rw [find?_map_id_preserving _ hfid img.id st.images,
        find?_by_id_of_nodup img.id st.images hnodup img himg rfl]
      simp only [Option.map_some']
      rw [hnotSave]
      simp
  · intro ids hall
    unfold handleBulkUnbookmark
    have hmap : st.images.map (fun img =>
        if ids.contains img.id then
          { img with isGalleryVisible := false, galleryTimestamp := none }
        else img) = st.images := by
      have hcongr : ∀ i ∈ st.images, (if ids.contains i.id then
          ({ i with isGalleryVisible := false, galleryTimestamp := none } : ImageBlob)
          else i) = i := by
        intro i hi
        by_cases hb : ids.contains i.id = true
        · rw [if_pos hb]
          obtain ⟨hv, ht⟩ := hall i hi hb
          cases i
          simp only at hv ht
          subst hv
          subst ht
          rfl
        · rw [if_neg hb]
      calc st.images.map _ = st.images.map (fun i => i) := List.map_congr_left hcongr
        _ = st.images := List.map_id _
  -- rewrite the update map back into the untouched table
    rw [hmap]
  · intro x img hgx hvis
    unfold handleToggleBookmark
    rw [hgx]
    simp only [hvis, if_true]
    constructor <;> trivial

def c7ImgA : ImageBlob :=
  { id := "a", blob := "ba", thumbnail := none, mimeType := "image/png",
    createdAt := 3, isGalleryVisible := true, galleryTimestamp := some 3 }

def c7ImgB : ImageBlob :=
  { id := "b", blob := "bb", thumbnail := none, mimeType := "image/png",
    createdAt := 4, isGalleryVisible := false, galleryTimestamp := none }

def c7wStore : Store :=
  { chats := [], messages := [], images := [c7ImgA, c7ImgB], prompts := [] }

/-- Witness for the amended C7 on a concrete store with one bookmarked and
one unsaved image. -/
theorem claimC7_amended_witness :
    getImage (handleToggleGallery ["a", "b"] c7wStore).1 "a" = some c7ImgA
    ∧ handleBulkUnbookmark ["b"] c7wStore = c7wStore
    ∧ (handleToggleBookmark "a" c7wStore).2 = false := by
  have h := claimC7_amended_toggle_noop c7wStore
  refine ⟨?_, h.2.1 ["b"] (by decide), (h.2.2 "a" c7ImgA (by decide) (by decide)).1⟩
  exact h.1 (by decide) ["a", "b"] (by decide) c7ImgA (by decide) (by decide)

end Okobit
